import Mathlib

/-!
finance-pwa: local store, Drive transport and sync coordinator

A shallow embedding of `src/App.js` and `src/googleDrive.js`.

* JavaScript exceptions and rejected promises are `Except JSError`.
* The IndexedDB object store `expenses` (`keyPath: "id"`, `autoIncrement: true`)
  is a list of records in key order together with the key generator.
* Google Drive is a list of files; every `fetch` has an outcome taken from a
  `Net` record (network failure, non-2xx answer, or success).
* Numbers are exact rationals plus `NaN` and the infinities; rounding to
  doubles is not modelled.
-/

namespace FinancePwa

/-! ## JavaScript values -/

/-- A thrown JavaScript value / promise rejection reason. -/
inductive JSError
  | noAccessToken        -- `new Error("Sem access token. Faz login primeiro.")`
  | gisNotLoaded         -- `"Google Identity Services não carregado..."`
  | tokenClientMissing   -- `"TokenClient não inicializado"`
  | authError            -- `resp.error` of the token callback
  | networkError         -- `fetch` rejected
  | syntaxError          -- `Response.json()` on a body that is not JSON
  | constraintError      -- IndexedDB `add` on an existing key
  | typeError            -- property access on `null`
  | rangeError           -- `toISOString` of an invalid date
  deriving DecidableEq, Repr

deriving instance DecidableEq for Except

/-- The value held in the `amount` field of a record: a JavaScript number, or
`null` (what `JSON.parse` yields for a serialised `NaN` or infinity). -/
inductive Amount
  | num (q : Rat)
  | nan
  | infinity (negative : Bool)
  | null
  deriving DecidableEq, Repr

/-- Whether `c` is one of the white space characters `parseFloat` skips. -/
def isWhiteSpace (c : Char) : Bool :=
  c == ' ' || c == '\t' || c == '\n' || c == '\r'

/-- Value of a run of decimal digits. -/
def digitsValue (ds : List Char) : Nat :=
  ds.foldl (fun n c => 10 * n + (c.toNat - 48)) 0

/-- The rational `m * 10 ^ e`. -/
def scale10 (m : Nat) (e : Int) : Rat :=
  match e with
  | Int.ofNat k => mkRat (Int.ofNat (m * 10 ^ k)) 1
  | Int.negSucc k => mkRat (Int.ofNat m) (10 ^ (k + 1))

/-- The exponent part `e[+-]ddd` at the head of `cs`, `0` when there is none. -/
def parseExponent (cs : List Char) : Int :=
  match cs with
  | 'e' :: r | 'E' :: r =>
    match r with
    | '-' :: ds =>
      if (ds.takeWhile Char.isDigit).isEmpty then 0
      else - Int.ofNat (digitsValue (ds.takeWhile Char.isDigit))
    | '+' :: ds => Int.ofNat (digitsValue (ds.takeWhile Char.isDigit))
    | ds => Int.ofNat (digitsValue (ds.takeWhile Char.isDigit))
  | _ => 0

/-- The unsigned part of `parseFloat`: `Infinity`, or the longest decimal
literal that starts the text; `NaN` when neither is there. -/
def parseUnsigned (negative : Bool) (cs : List Char) : Amount :=
  if cs.take 8 = ['I', 'n', 'f', 'i', 'n', 'i', 't', 'y'] then Amount.infinity negative
  else
    let intDigits := cs.takeWhile Char.isDigit
    let afterInt := cs.dropWhile Char.isDigit
    let fracDigits :=
      match afterInt with
      | '.' :: r => r.takeWhile Char.isDigit
      | _ => []
    let afterFrac :=
      match afterInt with
      | '.' :: r => r.dropWhile Char.isDigit
      | _ => afterInt
    if intDigits.isEmpty && fracDigits.isEmpty then Amount.nan
    else
      let mantissa := digitsValue (intDigits ++ fracDigits)
      let q := scale10 mantissa (parseExponent afterFrac - Int.ofNat fracDigits.length)
      Amount.num (if negative then -q else q)

/-- JavaScript `parseFloat` on a string. The value is the exact decimal (no
rounding to a double, no overflow to `Infinity`), and white space is the
space, tab, line feed and carriage return only. -/
def parseFloat (s : String) : Amount :=
  match s.toList.dropWhile isWhiteSpace with
  | '-' :: r => parseUnsigned true r
  | '+' :: r => parseUnsigned false r
  | cs => parseUnsigned false cs

/-- `Number.prototype.toFixed` is reached through `expense.amount.toFixed(2)`:
the property access throws on `null`, and succeeds on every number. The
resulting text is only shown in a dialog, so it is not modelled. -/
def Amount.toFixed (a : Amount) : Except JSError Unit :=
  match a with
  | Amount.null => Except.error JSError.typeError
  | _ => Except.ok ()

/-- What `JSON.stringify` followed by `JSON.parse` makes of a number: finite
numbers survive, `NaN` and the infinities are written as `null`. -/
def Amount.toJSON (a : Amount) : Amount :=
  match a with
  | Amount.num q => Amount.num q
  | _ => Amount.null

/-! ## Records -/

/-- An expense record `{ id, description, amount, date }`; `id` is absent
before the store has assigned one. -/
structure Expense where
  id : Option Nat
  description : String
  amount : Amount
  date : String
  deriving DecidableEq, Repr

/-- The record as it comes back from `JSON.parse (JSON.stringify e)`. -/
def Expense.toJSON (e : Expense) : Expense :=
  { e with amount := e.amount.toJSON }

/-- The fields that the remote payload format promises to carry. -/
def Expense.fields (e : Expense) : String × Amount × String :=
  (e.description, e.amount, e.date)

/-! ## Dates -/

/-- Milliseconds in a day. -/
def msPerDay : Int := 86400000

/-- Days between 1970-01-01 and the given proleptic Gregorian date. -/
def daysFromCivil (year month day : Int) : Int :=
  let y := if month ≤ 2 then year - 1 else year
  let era := y / 400
  let yoe := y - era * 400
  let mp := if month > 2 then month - 3 else month + 9
  let doy := (153 * mp + 2) / 5 + day - 1
  let doe := yoe * 365 + yoe / 4 - yoe / 100 + doy
  era * 146097 + doe - 719468

/-- The proleptic Gregorian date `(year, month, day)` of a day number. -/
def civilFromDays (days : Int) : Int × Int × Int :=
  let z := days + 719468
  let era := z / 146097
  let doe := z - era * 146097
  let yoe := (doe - doe / 1460 + doe / 36524 - doe / 146096) / 365
  let doy := doe - (365 * yoe + yoe / 4 - yoe / 100)
  let mp := (5 * doy + 2) / 153
  let d := doy - (153 * mp + 2) / 5 + 1
  let m := if mp < 10 then mp + 3 else mp - 9
  (if m ≤ 2 then yoe + era * 400 + 1 else yoe + era * 400, m, d)

/-- The time value of a date-only text `YYYY-MM-DD`, which JavaScript reads as
midnight UTC of that day; `none` is the invalid date. This is the only form
`<input type="date">` hands to `new Date(date)`; every other text is taken
as unparsable. -/
def parseDate (s : String) : Option Int :=
  match s.toList with
  | [y1, y2, y3, y4, '-', m1, m2, '-', d1, d2] =>
    if [y1, y2, y3, y4, m1, m2, d1, d2].all Char.isDigit then
      let y := Int.ofNat (digitsValue [y1, y2, y3, y4])
      let m := Int.ofNat (digitsValue [m1, m2])
      let d := Int.ofNat (digitsValue [d1, d2])
      if 1 ≤ m ∧ m ≤ 12 ∧ 1 ≤ d ∧ civilFromDays (daysFromCivil y m d) = (y, m, d) then
        some (daysFromCivil y m d * msPerDay)
      else none
    else none
  | _ => none

/-- The decimal digits of `n`, padded with zeros to `width` characters. -/
def padDigits (width : Nat) (n : Nat) : List Char :=
  match width with
  | 0 => []
  | w + 1 => padDigits w (n / 10) ++ [Char.ofNat (48 + n % 10)]

/-- `Date.prototype.toISOString` of a valid time value. -/
def toISOString (t : Int) : String :=
  let days := t / msPerDay
  let ms := (t % msPerDay).toNat
  let (y, m, d) := civilFromDays days
  let year :=
    if 0 ≤ y ∧ y ≤ 9999 then padDigits 4 y.toNat
    else (if y < 0 then '-' else '+') :: padDigits 6 y.natAbs
  String.mk (year ++ ['-'] ++ padDigits 2 m.toNat ++ ['-'] ++ padDigits 2 d.toNat ++ ['T']
    ++ padDigits 2 (ms / 3600000) ++ [':'] ++ padDigits 2 (ms / 60000 % 60) ++ [':']
    ++ padDigits 2 (ms / 1000 % 60) ++ ['.'] ++ padDigits 3 (ms % 1000) ++ ['Z'])

/-- The wall clock: the current instant in milliseconds since the epoch and
the offset of local time from UTC in minutes (positive east of Greenwich). The
offset is taken as fixed, without daylight saving transitions. -/
structure Clock where
  now : Int
  offsetMinutes : Int
  deriving DecidableEq, Repr

/-- The local calendar day (as a day number) in which instant `t` falls. -/
def Clock.localDay (c : Clock) (t : Int) : Int :=
  (t + c.offsetMinutes * 60000) / msPerDay

/-- `setHours(0,0,0,0)`: the instant of local midnight of the local day of `t`. -/
def Clock.setHoursZero (c : Clock) (t : Int) : Int :=
  c.localDay t * msPerDay - c.offsetMinutes * 60000

/-- Today's local calendar day. -/
def Clock.today (c : Clock) : Int := c.localDay c.now

/-! ## The IndexedDB object store `expenses` -/

/-- The object store: its records in key order, and the current number of the
key generator (`autoIncrement: true`). -/
structure DB where
  records : List Expense
  nextKey : Nat
  deriving DecidableEq, Repr

/-- A freshly created store. -/
def DB.empty : DB := { records := [], nextKey := 1 }

/-- `db.getAll("expenses")`. -/
def DB.getAll (db : DB) : List Expense := db.records

/-- Whether a record is stored under key `k`. -/
def DB.hasKey (db : DB) (k : Nat) : Bool :=
  db.records.any (fun r => r.id == some k)

/-- The key of a stored record (every stored record carries its `id`). -/
def Expense.key (e : Expense) : Nat := e.id.getD 0

/-- Put `e` at its place in a list kept in key order. -/
def insertByKey (e : Expense) : List Expense → List Expense
  | [] => [e]
  | r :: rs => if e.key < r.key then e :: r :: rs else r :: insertByKey e rs

/-- The operation `db.add("expenses", e)`: a record that carries an `id` is stored under it
and moves the key generator past it; a record without one gets the generator's
current number. An existing key is a `ConstraintError` and stores nothing.
The result is the store afterwards and the key (or the error). The key
generator is unbounded here, while IndexedDB's stops at `2 ^ 53`. -/
def DB.add (db : DB) (e : Expense) : DB × Except JSError Nat :=
  let k := match e.id with
    | some k => k
    | none => db.nextKey
  if db.hasKey k then (db, Except.error JSError.constraintError)
  else
    ({ records := insertByKey { e with id := some k } db.records,
       nextKey := max db.nextKey (k + 1) }, Except.ok k)

/-- `db.delete("expenses", id)`: no error when the key is absent. -/
def DB.delete (db : DB) (k : Nat) : DB :=
  { db with records := db.records.filter (fun r => r.id != some k) }

/-- `tx.store.clear()` in its own committed transaction; the key generator is
not reset. -/
def DB.clear (db : DB) : DB := { db with records := [] }

/-- The loop `for (const e of data) await db.add("expenses", e)`: one
transaction per record, stopping at the first failing `add`. -/
def DB.addEach (db : DB) : List Expense → DB × Except JSError Unit
  | [] => (db, Except.ok ())
  | e :: es =>
    match db.add e with
    | (db1, Except.ok _) => DB.addEach db1 es
    | (db1, Except.error err) => (db1, Except.error err)

/-! ## Google Drive and the network -/

/-- A parsed JSON document as the coordinator looks at it: an array of
records, or some other JSON value (such as the error object of a non-2xx
answer), which has no `length`. JSON arrays whose elements are not records,
and strings, are outside this type. -/
inductive DriveData
  | array (records : List Expense)
  | object
  deriving DecidableEq, Repr

/-- The test `driveData.length > 0`. -/
def DriveData.nonEmpty (d : DriveData) : Bool :=
  match d with
  | DriveData.array (_ :: _) => true
  | _ => false

/-- The records to iterate over in `for (const e of driveData)`. -/
def DriveData.records (d : DriveData) : List Expense :=
  match d with
  | DriveData.array rs => rs
  | DriveData.object => []

/-- `JSON.stringify(data, null, 2)` read back by `JSON.parse`: the text layer
of the two built-ins is not modelled, only what a record array becomes. -/
def stringify (data : List Expense) : DriveData :=
  DriveData.array (data.map Expense.toJSON)

/-- A Drive file named `finance-data.json` that is not trashed; `content` is
`none` when its text is not JSON. -/
structure DriveFile where
  fileId : Nat
  content : Option DriveData
  deriving DecidableEq, Repr

/-- The requests the client sends. -/
inductive Request
  | list
  | create
  | update (fileId : Nat)
  | download (fileId : Nat)
  deriving DecidableEq, Repr

/-- The remote store: the matching files in the order the list query returns
them, the id the next created file gets, and the requests received so far. -/
structure Drive where
  files : List DriveFile
  nextId : Nat
  requests : List Request
  deriving DecidableEq, Repr

/-- How one `fetch` ends: a 2xx answer, a non-2xx answer with a JSON error
body, or a rejected promise. -/
inductive Outcome
  | ok
  | httpError
  | networkError
  deriving DecidableEq, Repr

/-- The outcome of each kind of request during one operation. -/
structure Net where
  list : Outcome
  upload : Outcome
  download : Outcome
  deriving DecidableEq, Repr

/-- A network on which every request succeeds. -/
def Net.allOk : Net := { list := Outcome.ok, upload := Outcome.ok, download := Outcome.ok }

/-- JavaScript truthiness of a string-or-null value. -/
def truthy (v : Option String) : Bool :=
  match v with
  | some s => s != ""
  | none => false

/-- The list query followed by `listRes.json()`: the `files` ids of the
answer, `none` when the answer has no `files` member. -/
def fetchList (net : Net) (drive : Drive) : Drive × Except JSError (Option (List Nat)) :=
  let drive1 := { drive with requests := drive.requests ++ [Request.list] }
  match net.list with
  | Outcome.networkError => (drive1, Except.error JSError.networkError)
  | Outcome.httpError => (drive1, Except.ok none)
  | Outcome.ok => (drive1, Except.ok (some (drive.files.map DriveFile.fileId)))

/-- Replace the content of the file with the given id. -/
def setContent (fileId : Nat) (content : Option DriveData) : List DriveFile → List DriveFile
  | [] => []
  | f :: fs =>
    if f.fileId = fileId then { f with content := content } :: fs
    else f :: setContent fileId content fs

/-- The multipart upload: `PATCH` of the target file, or `POST` of a new one;
the result is `res.ok`. -/
def fetchUpload (net : Net) (drive : Drive) (target : Option Nat) (body : DriveData) :
    Drive × Except JSError Bool :=
  let request := match target with
    | some fileId => Request.update fileId
    | none => Request.create
  let drive1 := { drive with requests := drive.requests ++ [request] }
  match net.upload with
  | Outcome.networkError => (drive1, Except.error JSError.networkError)
  | Outcome.httpError => (drive1, Except.ok false)
  | Outcome.ok =>
    match target with
    | some fileId =>
      ({ drive1 with files := setContent fileId (some body) drive1.files }, Except.ok true)
    | none =>
      ({ drive1 with
          files := drive1.files ++ [{ fileId := drive1.nextId, content := some body }],
          nextId := drive1.nextId + 1 }, Except.ok true)

/-- The download `?alt=media` followed by `downloadRes.json()`. -/
def fetchDownload (net : Net) (drive : Drive) (fileId : Nat) : Drive × Except JSError DriveData :=
  let drive1 := { drive with requests := drive.requests ++ [Request.download fileId] }
  match net.download with
  | Outcome.networkError => (drive1, Except.error JSError.networkError)
  | Outcome.httpError => (drive1, Except.ok DriveData.object)
  | Outcome.ok =>
    match drive.files.find? (fun f => f.fileId == fileId) with
    | none => (drive1, Except.ok DriveData.object)
    | some f =>
      match f.content with
      | none => (drive1, Except.error JSError.syntaxError)
      | some d => (drive1, Except.ok d)

/-! ## `googleDrive.js` -/

/-- The `try` block of `uploadToDrive`. -/
def uploadToDriveTry (net : Net) (accessToken : Option String) (drive : Drive)
    (data : List Expense) : Drive × Except JSError Bool :=
  if !truthy accessToken then (drive, Except.error JSError.noAccessToken)
  else
    match fetchList net drive with
    | (drive1, Except.error err) => (drive1, Except.error err)
    | (drive1, Except.ok listJson) =>
      match listJson with
      | some (fileId :: _) => fetchUpload net drive1 (some fileId) (stringify data)
      | _ => fetchUpload net drive1 none (stringify data)

/-- The function `uploadToDrive(data)`: the `catch` turns every exception into `false`. -/
def uploadToDrive (net : Net) (accessToken : Option String) (drive : Drive)
    (data : List Expense) : Drive × Except JSError Bool :=
  match uploadToDriveTry net accessToken drive data with
  | (drive1, Except.ok ok) => (drive1, Except.ok ok)
  | (drive1, Except.error _) => (drive1, Except.ok false)

/-- The `try` block of `loadFromDrive`. -/
def loadFromDriveTry (net : Net) (accessToken : Option String) (drive : Drive) :
    Drive × Except JSError DriveData :=
  if !truthy accessToken then (drive, Except.error JSError.noAccessToken)
  else
    match fetchList net drive with
    | (drive1, Except.error err) => (drive1, Except.error err)
    | (drive1, Except.ok listJson) =>
      match listJson with
      | some (fileId :: _) => fetchDownload net drive1 fileId
      | _ => (drive1, Except.ok (DriveData.array []))

/-- The function `loadFromDrive()`: the `catch` turns every exception into `[]`. -/
def loadFromDrive (net : Net) (accessToken : Option String) (drive : Drive) :
    Drive × Except JSError DriveData :=
  match loadFromDriveTry net accessToken drive with
  | (drive1, Except.ok d) => (drive1, Except.ok d)
  | (drive1, Except.error _) => (drive1, Except.ok (DriveData.array []))

/-- The Google Identity Services platform: whether its script is loaded, and
the token it hands to the callback without a prompt and after the consent
prompt (`none`: the answer carries `error`). -/
structure Google where
  loaded : Bool
  silent : Option String
  consent : Option String
  deriving DecidableEq, Repr

/-- Everything the application keeps: the IndexedDB store, the React state
`expenses` and `userName`, the module variables `tokenClient` and `accessToken`
of `googleDrive.js`, the `localStorage` entry `drive_token`, and the remote. -/
structure World where
  db : DB
  expenses : List Expense
  userName : Option String
  tokenClient : Bool
  accessToken : Option String
  driveToken : Option String
  drive : Drive
  deriving DecidableEq, Repr

/-- The world when the page has just loaded: React state and module variables
have their initial values; the store, `localStorage` and the remote persist. -/
def World.start (db : DB) (driveToken : Option String) (drive : Drive) : World :=
  { db := db, expenses := [], userName := none, tokenClient := false, accessToken := none,
    driveToken := driveToken, drive := drive }

/-- The function `initGoogleGIS()`. -/
def initGoogleGIS (g : Google) (w : World) : World × Except JSError Unit :=
  if !g.loaded then (w, Except.error JSError.gisNotLoaded)
  else ({ w with tokenClient := true }, Except.ok ())

/-- The token callback shared by `requestAccessToken` and `trySilentLogin`. -/
def tokenCallback (resp : Option String) (w : World) : World × Except JSError String :=
  match resp with
  | none => (w, Except.error JSError.authError)
  | some token => ({ w with accessToken := some token, driveToken := some token }, Except.ok token)

/-- The function `requestAccessToken()` (consent prompt). -/
def requestAccessToken (g : Google) (w : World) : World × Except JSError String :=
  if !w.tokenClient then (w, Except.error JSError.tokenClientMissing)
  else tokenCallback g.consent w

/-- The function `trySilentLogin()` (`prompt: "none"`). -/
def trySilentLogin (g : Google) (w : World) : World × Except JSError String :=
  if !w.tokenClient then (w, Except.error JSError.tokenClientMissing)
  else tokenCallback g.silent w

/-! ## `App.js` -/

/-- The block `if (driveData.length > 0) { clear; add each; setExpenses(getAll) }`
that follows every `loadFromDrive()` (in both branches of `init` and in
`handleGoogleLogin`). The clear commits before the first `add`; a failing
`add` leaves the loop and skips `setExpenses`. -/
def replaceLocal (driveData : DriveData) (w : World) : World × Except JSError Unit :=
  if driveData.nonEmpty then
    match w.db.clear.addEach driveData.records with
    | (db1, Except.error err) => ({ w with db := db1 }, Except.error err)
    | (db1, Except.ok _) => ({ w with db := db1, expenses := db1.getAll }, Except.ok ())
  else (w, Except.ok ())

/-- The steps `setUserName("Utilizador"); driveData = await loadFromDrive();`
followed by the replace block. -/
def pullAndReplace (net : Net) (w : World) : World × Except JSError Unit :=
  let w1 := { w with userName := some "Utilizador" }
  match loadFromDrive net w1.accessToken w1.drive with
  | (drive1, Except.error err) => ({ w1 with drive := drive1 }, Except.error err)
  | (drive1, Except.ok driveData) => replaceLocal driveData { w1 with drive := drive1 }

/-- The `try` block of `init`. -/
def initTry (g : Google) (net : Net) (w : World) : World × Except JSError Unit :=
  match initGoogleGIS g w with
  | (w1, Except.error err) => (w1, Except.error err)
  | (w1, Except.ok _) =>
    if truthy w1.driveToken then pullAndReplace net w1
    else
      match trySilentLogin g w1 with
      | (w2, Except.error err) => (w2, Except.error err)
      | (w2, Except.ok _) => pullAndReplace net w2

/-- The startup effect `init`: load the store into memory, then the `try`
block, whose exceptions are only logged. -/
def init (g : Google) (net : Net) (w : World) : World :=
  (initTry g net { w with expenses := w.db.getAll }).1

/-- The function `handleGoogleLogin`; its `catch` logs and alerts. -/
def handleGoogleLogin (g : Google) (net : Net) (w : World) : World :=
  match requestAccessToken g w with
  | (w1, Except.error _) => w1
  | (w1, Except.ok _) => (pullAndReplace net w1).1

/-- The function `addExpenseToDB(expense)`: the store afterwards and `{ ...expense, id }`. -/
def addExpenseToDB (db : DB) (expense : Expense) : DB × Except JSError Expense :=
  match db.add expense with
  | (db1, Except.ok id) => (db1, Except.ok { expense with id := some id })
  | (db1, Except.error err) => (db1, Except.error err)

/-- The function `deleteExpenseFromDB(id)`. -/
def deleteExpenseFromDB (db : DB) (id : Nat) : DB := db.delete id

/-- The function `trySyncToDrive(currentExpenses)`. -/
def trySyncToDrive (net : Net) (w : World) (currentExpenses : List Expense) :
    World × Except JSError Unit :=
  if !truthy w.userName then (w, Except.ok ())
  else
    match uploadToDrive net w.accessToken w.drive currentExpenses with
    | (drive1, Except.ok _) => ({ w with drive := drive1 }, Except.ok ())
    | (drive1, Except.error _) => ({ w with drive := drive1 }, Except.ok ())

/-- The function `addExpense` on the form fields `description`, `amount` and `date`
(the texts of the three inputs). Resetting the form afterwards is not
modelled. Both `new Date()` calls are taken at the same instant. -/
def addExpense (clock : Clock) (net : Net) (description amount date : String) (w : World) :
    World × Except JSError Unit :=
  if description = "" ∨ amount = "" then (w, Except.ok ())
  else
    let expenseDate : Option Int := if date ≠ "" then parseDate date else some clock.now
    let midnight : Option Int := expenseDate.map clock.setHoursZero
    let inFuture : Bool :=
      match midnight with
      | some t => decide (t > clock.setHoursZero clock.now)
      | none => false
    if inFuture then (w, Except.ok ())
    else
      match midnight with
      | none => (w, Except.error JSError.rangeError)
      | some t =>
        let expense : Expense :=
          { id := none, description := description, amount := parseFloat amount,
            date := toISOString t }
        match addExpenseToDB w.db expense with
        | (db1, Except.error err) => ({ w with db := db1 }, Except.error err)
        | (db1, Except.ok saved) =>
          let updated := w.expenses ++ [saved]
          trySyncToDrive net { w with db := db1, expenses := updated } updated

/-- The function `deleteExpense(id)`; `confirm` is the answer to `window.confirm`, whose
message needs `expense.amount.toFixed(2)`. -/
def deleteExpense (confirm : Bool) (net : Net) (id : Nat) (w : World) :
    World × Except JSError Unit :=
  match w.expenses.find? (fun e => e.id == some id) with
  | none => (w, Except.ok ())
  | some expense =>
    match expense.amount.toFixed with
    | Except.error err => (w, Except.error err)
    | Except.ok _ =>
      if !confirm then (w, Except.ok ())
      else
        let db1 := deleteExpenseFromDB w.db id
        let updated := w.expenses.filter (fun e => e.id != some id)
        trySyncToDrive net { w with db := db1, expenses := updated } updated

/-! ## Well-formed stores -/

/-- What IndexedDB maintains for the store: every record carries its key,
the keys are strictly increasing along `getAll`, and the key generator is
past every key. -/
def DB.WF (db : DB) : Prop :=
  (∀ e ∈ db.records, ∃ k, e.id = some k ∧ k < db.nextKey) ∧
  db.records.Pairwise (fun a b => a.key < b.key)

/-- What the replace step leaves when it took the pulled records `R`: the
store holds the records of `R` in key order (so `R` itself when `R` is in key
order), and the in-memory list is the store's content. -/
def Replaced (w : World) (R : List Expense) : Prop :=
  w.db.getAll.Perm R ∧ w.db.getAll.Pairwise (fun a b => a.key < b.key) ∧
  (R.Pairwise (fun a b => a.key < b.key) → w.db.getAll = R) ∧
  w.expenses = w.db.getAll

/-! ## Concrete inputs -/

/-- Record `A` of the remote snapshot. -/
def recA : Expense :=
  { id := some 1, description := "A", amount := Amount.num 3, date := "2024-03-01T00:00:00.000Z" }

/-- Record `B` of the remote snapshot. -/
def recB : Expense :=
  { id := some 2, description := "B", amount := Amount.num 4, date := "2024-03-02T00:00:00.000Z" }

/-- The local record `C`. -/
def recC : Expense :=
  { id := some 7, description := "C", amount := Amount.num 9, date := "2024-03-03T00:00:00.000Z" }

/-- The local store holding `[C]`. -/
def dbC : DB := { records := [recC], nextKey := 8 }

/-- A remote without any file. -/
def driveEmpty : Drive := { files := [], nextId := 0, requests := [] }

/-- A remote whose snapshot is `[A, B]`. -/
def driveAB : Drive :=
  { files := [{ fileId := 0, content := some (DriveData.array [recA, recB]) }],
    nextId := 1, requests := [] }

/-- A remote whose snapshot is not JSON. -/
def driveMalformed : Drive :=
  { files := [{ fileId := 0, content := none }], nextId := 1, requests := [] }

/-- A loaded platform that hands out the token `tok`. -/
def googleOk : Google := { loaded := true, silent := some "tok", consent := some "tok" }

/-- A network on which every request is rejected. -/
def netDown : Net :=
  { list := Outcome.networkError, upload := Outcome.networkError,
    download := Outcome.networkError }

/-- Eight in the evening of 14 March 2024 in a zone five hours west of
Greenwich (`2024-03-15T01:00:00Z`). -/
def clockWest14 : Clock := { now := 1710464400000, offsetMinutes := -300 }

/-- Noon of 15 March 2024 in a zone five hours west of Greenwich
(`2024-03-15T17:00:00Z`). -/
def clockWest15 : Clock := { now := 1710522000000, offsetMinutes := -300 }

/-- Six in the evening of 14 March 2024 in a zone one hour east of Greenwich
(`2024-03-14T17:00:00Z`). -/
def clockEast14 : Clock := { now := 1710435600000, offsetMinutes := 60 }

/-- A first start: empty store, nothing in `localStorage`, no remote file. -/
def worldFresh : World := World.start DB.empty none driveEmpty

/-- Record `A` with the amount `null`. -/
def recNull : Expense := { recA with amount := Amount.null }

/-- A world whose store holds `[A]` while the in-memory list holds `[C]`, as
after a replace step that stopped at a failing `add`. -/
def worldDiverged : World :=
  { World.start { records := [recA], nextKey := 8 } none driveEmpty with
    expenses := [recC] }

/-- A network on which the list query is answered non-2xx while uploads and
downloads succeed. -/
def netListRefused : Net :=
  { list := Outcome.httpError, upload := Outcome.ok, download := Outcome.ok }

/-- A record whose amount was parsed from the text `abc`. -/
def recNaN : Expense := { recA with amount := parseFloat "abc" }

/-- A remote snapshot in which two records carry the id `1`. -/
def driveDup : Drive :=
  { files := [{ fileId := 0,
                content := some (DriveData.array [recA, { recB with id := some 1 }]) }],
    nextId := 1, requests := [] }

/-- A world whose store and in-memory list both hold `[A, C]`. -/
def worldAC : World :=
  { World.start { records := [recA, recC], nextKey := 8 } none driveEmpty with
    expenses := [recA, recC] }

/-- A world after a successful login: the store and the in-memory list hold
`[C]`, the token is `tok`, and the remote has no file yet. -/
def worldLoggedIn : World :=
  { db := dbC, expenses := [recC], userName := some "Utilizador", tokenClient := true,
    accessToken := some "tok", driveToken := some "tok", drive := driveEmpty }

/-! ## The transport never throws -/

theorem uploadToDrive_ok (net : Net) (token : Option String) (drive : Drive)
    (data : List Expense) :
    ∃ ok, (uploadToDrive net token drive data).2 = Except.ok ok := by
  unfold uploadToDrive
  split
  · exact ⟨_, rfl⟩
  · exact ⟨false, rfl⟩

theorem uploadToDrive_false (net : Net) (token : Option String) (drive : Drive)
    (data : List Expense)
    (h : truthy token = false ∨ net.list = Outcome.networkError ∨ net.upload ≠ Outcome.ok) :
    (uploadToDrive net token drive data).2 = Except.ok false := by
  unfold uploadToDrive uploadToDriveTry
  by_cases ht : truthy token = true
  · simp only [ht, Bool.not_true, Bool.false_eq_true, if_false]
    rcases hf : drive.files with _ | ⟨f, fs⟩ <;>
      rcases hl : net.list with _ | _ | _ <;> rcases hu : net.upload with _ | _ | _ <;>
      simp_all [fetchList, fetchUpload]
  · simp [ht]

theorem loadFromDrive_ok (net : Net) (token : Option String) (drive : Drive) :
    ∃ d, (loadFromDrive net token drive).2 = Except.ok d := by
  unfold loadFromDrive
  split
  · exact ⟨_, rfl⟩
  · exact ⟨_, rfl⟩

theorem loadFromDrive_no_token (net : Net) (token : Option String) (drive : Drive)
    (h : truthy token = false) :
    loadFromDrive net token drive = (drive, Except.ok (DriveData.array [])) := by
  simp [loadFromDrive, loadFromDriveTry, h]

theorem trySyncToDrive_db (net : Net) (w : World) (cur : List Expense) :
    (trySyncToDrive net w cur).1.db = w.db ∧
    (trySyncToDrive net w cur).1.expenses = w.expenses ∧
    (trySyncToDrive net w cur).2 = Except.ok () := by
  unfold trySyncToDrive
  split
  · exact ⟨rfl, rfl, rfl⟩
  · split <;> exact ⟨rfl, rfl, rfl⟩

/-! ## Mutations do not depend on the network -/

theorem addExpense_net_independent (clock : Clock) (net net0 : Net)
    (description amount date : String) (w : World) :
    (addExpense clock net description amount date w).1.db =
      (addExpense clock net0 description amount date w).1.db ∧
    (addExpense clock net description amount date w).1.expenses =
      (addExpense clock net0 description amount date w).1.expenses ∧
    (addExpense clock net description amount date w).2 =
      (addExpense clock net0 description amount date w).2 := by
  unfold addExpense
  by_cases h : description = "" ∨ amount = ""
  · simp only [h, if_true, and_self]
  · simp only [h, if_false]
    generalize Option.map clock.setHoursZero
      (if date ≠ "" then parseDate date else some clock.now) = m
    cases m with
    | none => simp
    | some t =>
      by_cases hf : t > clock.setHoursZero clock.now
      · simp [hf]
      · simp only [hf, decide_False, Bool.false_eq_true, if_false]
        rcases addExpenseToDB w.db
          { id := none, description := description, amount := parseFloat amount,
            date := toISOString t } with ⟨db1, err | saved⟩
        · simp
        · simp [trySyncToDrive_db]

theorem deleteExpense_net_independent (confirm : Bool) (net net0 : Net) (id : Nat) (w : World) :
    (deleteExpense confirm net id w).1.db = (deleteExpense confirm net0 id w).1.db ∧
    (deleteExpense confirm net id w).1.expenses = (deleteExpense confirm net0 id w).1.expenses ∧
    (deleteExpense confirm net id w).2 = (deleteExpense confirm net0 id w).2 := by
  unfold deleteExpense
  split
  · exact ⟨rfl, rfl, rfl⟩
  · split
    · exact ⟨rfl, rfl, rfl⟩
    · split
      · exact ⟨rfl, rfl, rfl⟩
      · simp only [trySyncToDrive_db, and_self]

/-! ## Claims about failure containment and empty pulls -/

theorem uploadToDrive_true_iff (net : Net) (token : Option String) (drive : Drive)
    (data : List Expense) :
    (uploadToDrive net token drive data).2 = Except.ok true ↔
      (truthy token = true ∧ net.list ≠ Outcome.networkError ∧ net.upload = Outcome.ok) := by
  unfold uploadToDrive uploadToDriveTry
  by_cases ht : truthy token = true
  · simp only [ht, Bool.not_true, Bool.false_eq_true, if_false]
    rcases hf : drive.files with _ | ⟨f, fs⟩ <;>
      rcases hl : net.list with _ | _ | _ <;> rcases hu : net.upload with _ | _ | _ <;>
      simp_all [fetchList, fetchUpload]
  · simp [ht]

/-- C9 fails on the code: with the token `tok`, the snapshot `[A, B]` on the
remote, the list query answered non-2xx and the upload succeeding,
`uploadToDrive` does not resolve to `false`: the answer without `files` is
read as "no file", a second file is created and the result is `true`. -/
theorem upload_true_on_refused_list :
    (uploadToDrive netListRefused (some "tok") driveAB [recC]).2 = Except.ok true ∧
    (uploadToDrive netListRefused (some "tok") driveAB [recC]).1.files =
      [{ fileId := 0, content := some (DriveData.array [recA, recB]) },
       { fileId := 1, content := some (DriveData.array [recC]) }] ∧
    (uploadToDrive netListRefused (some "tok") driveAB [recC]).1.requests =
      [Request.list, Request.create] := by
  decide

/-- C9 as amended: whatever the remote calls of a push do, `uploadToDrive`
resolves to a boolean and never throws; it resolves to `false` when the token
is missing, the list call is rejected, or the upload is rejected or answered
non-2xx, and to `true` in every other case (so also when only the list query
is answered non-2xx); `trySyncToDrive` completes without raising and leaves
the store and the in-memory list alone; and the store, the in-memory list and
the completion of `addExpense` and `deleteExpense` are the same under every
network behaviour. -/
theorem push_failure_contained (clock : Clock) (net : Net) (w : World) (data : List Expense)
    (description amount date : String) (confirm : Bool) (id : Nat) :
    (∃ ok, (uploadToDrive net w.accessToken w.drive data).2 = Except.ok ok) ∧
    ((truthy w.accessToken = false ∨ net.list = Outcome.networkError ∨
        net.upload ≠ Outcome.ok) →
      (uploadToDrive net w.accessToken w.drive data).2 = Except.ok false) ∧
    ((uploadToDrive net w.accessToken w.drive data).2 = Except.ok true ↔
      (truthy w.accessToken = true ∧ net.list ≠ Outcome.networkError ∧
        net.upload = Outcome.ok)) ∧
    ((trySyncToDrive net w data).2 = Except.ok () ∧
      (trySyncToDrive net w data).1.db = w.db ∧
      (trySyncToDrive net w data).1.expenses = w.expenses) ∧
    (∀ net0 : Net,
      (addExpense clock net description amount date w).1.db =
        (addExpense clock net0 description amount date w).1.db ∧
      (addExpense clock net description amount date w).1.expenses =
        (addExpense clock net0 description amount date w).1.expenses ∧
      (addExpense clock net description amount date w).2 =
        (addExpense clock net0 description amount date w).2) ∧
    (∀ net0 : Net,
      (deleteExpense confirm net id w).1.db = (deleteExpense confirm net0 id w).1.db ∧
      (deleteExpense confirm net id w).1.expenses =
        (deleteExpense confirm net0 id w).1.expenses ∧
      (deleteExpense confirm net id w).2 = (deleteExpense confirm net0 id w).2) :=
  ⟨uploadToDrive_ok net w.accessToken w.drive data,
   uploadToDrive_false net w.accessToken w.drive data,
   uploadToDrive_true_iff net w.accessToken w.drive data,
   ⟨(trySyncToDrive_db net w data).2.2, (trySyncToDrive_db net w data).1,
    (trySyncToDrive_db net w data).2.1⟩,
   fun net0 => addExpense_net_independent clock net net0 description amount date w,
   fun net0 => deleteExpense_net_independent confirm net net0 id w⟩

/-- C9 as amended, at a concrete input: logged in, every request rejected. -/
theorem push_failure_contained_witness :
    (uploadToDrive netDown worldLoggedIn.accessToken worldLoggedIn.drive [recA]).2 =
      Except.ok false ∧
    (addExpense clockEast14 netDown "cafe" "5" "2024-03-14" worldLoggedIn).1.db =
      (addExpense clockEast14 Net.allOk "cafe" "5" "2024-03-14" worldLoggedIn).1.db ∧
    (addExpense clockEast14 netDown "cafe" "5" "2024-03-14" worldLoggedIn).1.expenses =
      (addExpense clockEast14 Net.allOk "cafe" "5" "2024-03-14" worldLoggedIn).1.expenses :=
  have h := push_failure_contained clockEast14 netDown worldLoggedIn [recA]
    "cafe" "5" "2024-03-14" true 1
  ⟨h.2.1 (Or.inr (Or.inl rfl)), (h.2.2.2.2.1 Net.allOk).1, (h.2.2.2.2.1 Net.allOk).2.1⟩

theorem pullAndReplace_of_empty (net : Net) (w : World)
    (h : (loadFromDrive net w.accessToken w.drive).2 = Except.ok (DriveData.array [])) :
    (pullAndReplace net w).1.db = w.db ∧ (pullAndReplace net w).1.expenses = w.expenses := by
  unfold pullAndReplace
  rcases hl : loadFromDrive net w.accessToken w.drive with ⟨d1, r⟩
  rw [hl] at h
  simp only at h
  subst h
  simp [hl, replaceLocal, DriveData.nonEmpty]

/-- C10: when the pull made at startup returns the empty sequence, the local
store is what it was and the in-memory list is the store's content, both when
a stored token is found and when the silent login runs. -/
theorem empty_pull_preserves_local (g : Google) (net : Net) (w : World) :
    (truthy w.driveToken = true →
      (loadFromDrive net w.accessToken w.drive).2 = Except.ok (DriveData.array []) →
      (init g net w).db = w.db ∧ (init g net w).expenses = w.db.getAll) ∧
    (truthy w.driveToken = false →
      (∀ token, g.silent = some token →
        (loadFromDrive net (some token) w.drive).2 = Except.ok (DriveData.array [])) →
      (init g net w).db = w.db ∧ (init g net w).expenses = w.db.getAll) := by
  constructor
  · intro ht hl
    unfold init initTry initGoogleGIS
    by_cases hg : g.loaded = true
    · simp only [hg, Bool.not_true, Bool.false_eq_true, if_false, ht, if_true]
      exact pullAndReplace_of_empty net _ hl
    · simp [hg]
  · intro ht hl
    unfold init initTry initGoogleGIS
    by_cases hg : g.loaded = true
    · simp only [hg, Bool.not_true, Bool.false_eq_true, if_false, ht, trySilentLogin,
        tokenCallback]
      cases hs : g.silent with
      | none => simp
      | some token =>
        simp only [if_false, Bool.false_eq_true]
        exact pullAndReplace_of_empty net _ (hl token hs)
    · simp [hg]

/-- C10 at a concrete input: no remote object, local state `[C]`, no stored
token, silent login succeeds. -/
theorem empty_pull_preserves_local_witness :
    (init googleOk Net.allOk (World.start dbC none driveEmpty)).db = dbC ∧
    (init googleOk Net.allOk (World.start dbC none driveEmpty)).expenses = [recC] :=
  (empty_pull_preserves_local googleOk Net.allOk (World.start dbC none driveEmpty)).2
    (by decide) (by intro token h; cases h; decide)

/-! ## Startup with a stored token -/

theorem init_stored_token_keeps_local (g : Google) (net : Net) (db : DB) (token : String)
    (drive : Drive) (h : token ≠ "") :
    (init g net (World.start db (some token) drive)).db = db ∧
    (init g net (World.start db (some token) drive)).expenses = db.getAll ∧
    (init g net (World.start db (some token) drive)).drive = drive := by
  unfold init initTry initGoogleGIS
  by_cases hg : g.loaded = true
  · simp [hg, h, World.start, pullAndReplace, loadFromDrive, loadFromDriveTry, truthy,
      replaceLocal, DriveData.nonEmpty]
  · simp [hg, World.start]

/-- C1 fails on the code: with the token `tok` stored under `drive_token`, the
platform loaded, every request succeeding, the remote snapshot `[A, B]` and the
local state `[C]`, startup leaves the store and the in-memory list at `[C]`
and sends no request: `accessToken` is still `null` when `loadFromDrive`
runs. -/
theorem stored_token_startup_does_not_pull :
    (init googleOk Net.allOk (World.start dbC (some "tok") driveAB)).db.getAll = [recC] ∧
    (init googleOk Net.allOk (World.start dbC (some "tok") driveAB)).expenses = [recC] ∧
    (init googleOk Net.allOk (World.start dbC (some "tok") driveAB)).accessToken = none ∧
    (init googleOk Net.allOk (World.start dbC (some "tok") driveAB)).drive.requests = [] ∧
    (init googleOk Net.allOk (World.start dbC none driveAB)).db.getAll = [recA, recB] := by
  decide

/-! ## `loadFromDrive` -/

/-- C2 fails on the code: with a valid token and a remote object whose content
is not JSON, or with every request rejected, `loadFromDrive` resolves to the
empty sequence instead of failing. -/
theorem loadFromDrive_malformed_returns_empty :
    (loadFromDrive Net.allOk (some "tok") driveMalformed).2 = Except.ok (DriveData.array []) ∧
    (loadFromDrive netDown (some "tok") driveAB).2 = Except.ok (DriveData.array []) := by
  decide

/-- C2 as amended: `loadFromDrive` never fails. It resolves to the empty
sequence when no object named `finance-data.json` is listed, and also when
there is no access token, when the list or the download request is rejected,
and when the object's content is not JSON. -/
theorem loadFromDrive_never_fails (net : Net) (token : Option String) (drive : Drive) :
    (∃ d, (loadFromDrive net token drive).2 = Except.ok d) ∧
    (drive.files = [] →
      (loadFromDrive net token drive).2 = Except.ok (DriveData.array [])) ∧
    (truthy token = false →
      (loadFromDrive net token drive).2 = Except.ok (DriveData.array [])) ∧
    (net.list = Outcome.networkError →
      (loadFromDrive net token drive).2 = Except.ok (DriveData.array [])) ∧
    (net.download = Outcome.networkError →
      (loadFromDrive net token drive).2 = Except.ok (DriveData.array [])) ∧
    (∀ f fs, drive.files = f :: fs → f.content = none → net.download = Outcome.ok →
      (loadFromDrive net token drive).2 = Except.ok (DriveData.array [])) := by
  refine ⟨loadFromDrive_ok net token drive, ?_, ?_, ?_, ?_, ?_⟩
  · intro hf
    by_cases ht : truthy token = true
    · rcases hl : net.list with _ | _ | _ <;>
        simp [loadFromDrive, loadFromDriveTry, fetchList, ht, hf, hl]
    · simp [loadFromDrive, loadFromDriveTry, ht]
  · intro ht
    simp [loadFromDrive, loadFromDriveTry, ht]
  · intro hl
    by_cases ht : truthy token = true
    · simp [loadFromDrive, loadFromDriveTry, fetchList, ht, hl]
    · simp [loadFromDrive, loadFromDriveTry, ht]
  · intro hd
    by_cases ht : truthy token = true
    · rcases hf : drive.files with _ | ⟨f, fs⟩ <;> rcases hl : net.list with _ | _ | _ <;>
        simp [loadFromDrive, loadFromDriveTry, fetchList, fetchDownload, ht, hf, hl, hd]
    · simp [loadFromDrive, loadFromDriveTry, ht]
  · intro f fs hf hc hd
    by_cases ht : truthy token = true
    · rcases hl : net.list with _ | _ | _ <;>
        simp [loadFromDrive, loadFromDriveTry, fetchList, fetchDownload, ht, hf, hl, hd, hc]
    · simp [loadFromDrive, loadFromDriveTry, ht]

/-- C2 as amended, at a concrete input: a malformed remote object. -/
theorem loadFromDrive_never_fails_witness :
    (loadFromDrive Net.allOk (some "tok") driveMalformed).2 = Except.ok (DriveData.array []) :=
  (loadFromDrive_never_fails Net.allOk (some "tok") driveMalformed).2.2.2.2.2
    { fileId := 0, content := none } [] rfl rfl rfl

/-! ## `addExpense` -/

/-- C3 fails on the code: the amount texts `-5`, `0` and `abc` are not
rejected; each one is stored (as `-5`, `0` and `NaN`) in the local store and
the in-memory list. -/
theorem addExpense_stores_nonpositive_amount :
    (addExpense clockEast14 Net.allOk "cafe" "-5" "" worldFresh).1.db.getAll =
      [{ id := some 1, description := "cafe", amount := Amount.num (-5),
         date := "2024-03-13T23:00:00.000Z" }] ∧
    (addExpense clockEast14 Net.allOk "cafe" "-5" "" worldFresh).1.expenses =
      [{ id := some 1, description := "cafe", amount := Amount.num (-5),
         date := "2024-03-13T23:00:00.000Z" }] ∧
    ((addExpense clockEast14 Net.allOk "cafe" "0" "" worldFresh).1.db.getAll.map
      Expense.amount) = [Amount.num 0] ∧
    ((addExpense clockEast14 Net.allOk "cafe" "abc" "" worldFresh).1.db.getAll.map
      Expense.amount) = [Amount.nan] := by
  decide

/-- C3 as amended: `addExpense` rejects every input whose description or
amount text is empty: nothing changes, in particular the local store, the
in-memory list and the requests the remote has received. -/
theorem addExpense_rejects_empty (clock : Clock) (net : Net)
    (description amount date : String) (w : World)
    (h : description = "" ∨ amount = "") :
    addExpense clock net description amount date w = (w, Except.ok ()) := by
  unfold addExpense
  simp only [h, if_true]

/-- C3 as amended, at a concrete input: an empty amount text. -/
theorem addExpense_rejects_empty_witness :
    addExpense clockEast14 Net.allOk "cafe" "" "2024-03-14" worldFresh =
      (worldFresh, Except.ok ()) :=
  addExpense_rejects_empty clockEast14 Net.allOk "cafe" "" "2024-03-14" worldFresh
    (Or.inr rfl)

/-- The future-date test of `addExpense` on a submitted day `d` (read as
midnight UTC): east of Greenwich, or on it, it rejects exactly the days after
today; west of Greenwich it rejects only the days after tomorrow. -/
theorem setHoursZero_future_iff (c : Clock) (d : Int) :
    (0 ≤ c.offsetMinutes → c.offsetMinutes < 1440 →
      (c.setHoursZero (d * msPerDay) > c.setHoursZero c.now ↔ d > c.today)) ∧
    (-1440 < c.offsetMinutes → c.offsetMinutes < 0 →
      (c.setHoursZero (d * msPerDay) > c.setHoursZero c.now ↔ d > c.today + 1)) := by
  simp only [Clock.setHoursZero, Clock.today, Clock.localDay, msPerDay]
  constructor <;> intro h1 h2 <;> omega

/-- C4 fails on the code: at eight in the evening of 14 March 2024, five
hours west of Greenwich, the submitted date `2024-03-15` is tomorrow, yet
`addExpense` accepts it and stores a record dated `2024-03-14T05:00:00.000Z`;
on the evening of the same day one hour east of Greenwich the same submission
is rejected. -/
theorem addExpense_accepts_tomorrow_west_of_utc :
    clockWest14.today = 19796 ∧ clockEast14.today = 19796 ∧
    parseDate "2024-03-15" = some (19797 * msPerDay) ∧
    (addExpense clockWest14 Net.allOk "cafe" "5" "2024-03-15" worldFresh).1.db.getAll =
      [{ id := some 1, description := "cafe", amount := Amount.num 5,
         date := "2024-03-14T05:00:00.000Z" }] ∧
    (addExpense clockWest14 Net.allOk "cafe" "5" "2024-03-15" worldFresh).1.expenses =
      [{ id := some 1, description := "cafe", amount := Amount.num 5,
         date := "2024-03-14T05:00:00.000Z" }] ∧
    (addExpense clockEast14 Net.allOk "cafe" "5" "2024-03-15" worldFresh).1 = worldFresh := by
  decide

theorem insertByKey_last (e : Expense) (l : List Expense) (h : ∀ r ∈ l, r.key < e.key) :
    insertByKey e l = l ++ [e] := by
  induction l with
  | nil => rfl
  | cons r rs ih =>
    have hr := h r (List.mem_cons_self r rs)
    simp [insertByKey, Nat.lt_asymm hr, ih (fun x hx => h x (List.mem_cons_of_mem r hx))]

theorem DB.add_new (db : DB) (e : Expense) (hwf : db.WF) (he : e.id = none) :
    db.add e = ({ records := db.records ++ [{ e with id := some db.nextKey }],
                  nextKey := db.nextKey + 1 }, Except.ok db.nextKey) ∧
    ∀ r ∈ db.records, r.id ≠ some db.nextKey := by
  have hfresh : ∀ r ∈ db.records, r.id ≠ some db.nextKey := by
    intro r hr heq
    obtain ⟨k, hk, hlt⟩ := hwf.1 r hr
    rw [hk] at heq
    exact Nat.lt_irrefl k (by rw [Option.some.inj heq] at hlt ⊢; exact hlt)
  have hkey : db.hasKey db.nextKey = false := by
    simp only [DB.hasKey, List.any_eq_false, beq_iff_eq]
    exact hfresh
  have hlast : ∀ r ∈ db.records, r.key < ({ e with id := some db.nextKey } : Expense).key := by
    intro r hr
    obtain ⟨k, hk, hlt⟩ := hwf.1 r hr
    simpa [Expense.key, hk] using hlt
  refine ⟨?_, hfresh⟩
  simp [DB.add, he, hkey, insertByKey_last _ _ hlast]

/-- What `addExpense` does on an accepted input: in a state whose store is
well formed and whose in-memory list is the store's content, it completes,
and the store and the in-memory list are the former records followed by one
new record. Its id is the key generator's number, which no former record
carries; its description is the submitted one, its amount is `parseFloat` of
the amount text, and its date is the ISO text of local midnight of the
instant `new Date(date)` denotes. -/
theorem addExpense_appends (clock : Clock) (net : Net) (description amount date : String)
    (w : World) (t : Int) (hwf : w.db.WF) (hsync : w.expenses = w.db.getAll)
    (hd : description ≠ "") (ha : amount ≠ "")
    (ht : (if date ≠ "" then parseDate date else some clock.now) = some t)
    (hnow : ¬ clock.setHoursZero t > clock.setHoursZero clock.now) :
    (addExpense clock net description amount date w).2 = Except.ok () ∧
    (addExpense clock net description amount date w).1.db.getAll = w.db.getAll ++
      [{ id := some w.db.nextKey, description := description, amount := parseFloat amount,
         date := toISOString (clock.setHoursZero t) }] ∧
    (addExpense clock net description amount date w).1.expenses = w.db.getAll ++
      [{ id := some w.db.nextKey, description := description, amount := parseFloat amount,
         date := toISOString (clock.setHoursZero t) }] ∧
    ∀ e ∈ w.db.getAll, e.id ≠ some w.db.nextKey := by
  obtain ⟨hadd, hfresh⟩ := DB.add_new w.db
    { id := none, description := description, amount := parseFloat amount,
      date := toISOString (clock.setHoursZero t) } hwf rfl
  refine ⟨?_, ?_, ?_, hfresh⟩ <;>
    simp [addExpense, hd, ha, ht, hnow, addExpenseToDB, hadd, trySyncToDrive_db, DB.getAll,
      hsync]

/-- C5 fails on the code: at noon of 15 March 2024, five hours west of
Greenwich, the valid input `cafe`, `5`, `2024-03-15` (today) adds exactly one
record with id `1`, but its date is `2024-03-14T05:00:00.000Z`, an instant of
the local day before the submitted one. -/
theorem addExpense_stores_previous_day_west_of_utc :
    clockWest15.today = 19797 ∧
    parseDate "2024-03-15" = some (19797 * msPerDay) ∧
    (addExpense clockWest15 Net.allOk "cafe" "5" "2024-03-15" worldFresh).1.db.getAll =
      [{ id := some 1, description := "cafe", amount := Amount.num 5,
         date := "2024-03-14T05:00:00.000Z" }] ∧
    (addExpense clockWest15 Net.allOk "cafe" "5" "2024-03-15" worldFresh).1.expenses =
      [{ id := some 1, description := "cafe", amount := Amount.num 5,
         date := "2024-03-14T05:00:00.000Z" }] ∧
    toISOString (clockWest15.setHoursZero (19797 * msPerDay)) = "2024-03-14T05:00:00.000Z" ∧
    clockWest15.localDay (clockWest15.setHoursZero (19797 * msPerDay)) = 19796 := by
  decide

/-! ## `deleteExpense` -/

/-- C6: `deleteExpense(id)` is called from the row of a record of the
in-memory list, after the row has shown `amount.toFixed(2)`. In every state,
for every id carried by a record of the in-memory list whose amount is not
`null`, `deleteExpense(id)` with the confirmation accepted completes without
error, and afterwards the store and the in-memory list each hold exactly
their former records whose id differs, so none with that id. And in every
state, when no record of the in-memory list has that id (in particular when
no record with that id exists), `deleteExpense(id)` completes without error
and changes nothing. -/
theorem deleteExpense_removes (net : Net) (id : Nat) (w : World) :
    ((∃ e ∈ w.expenses, e.id = some id) →
      (∀ e ∈ w.expenses, e.id = some id → e.amount ≠ Amount.null) →
      (deleteExpense true net id w).2 = Except.ok () ∧
      (deleteExpense true net id w).1.db.getAll =
        w.db.getAll.filter (fun e => e.id != some id) ∧
      (deleteExpense true net id w).1.expenses =
        w.expenses.filter (fun e => e.id != some id) ∧
      (∀ e ∈ (deleteExpense true net id w).1.db.getAll, e.id ≠ some id) ∧
      (∀ e ∈ (deleteExpense true net id w).1.expenses, e.id ≠ some id)) ∧
    ((∀ e ∈ w.expenses, e.id ≠ some id) →
      ∀ confirm, deleteExpense confirm net id w = (w, Except.ok ())) := by
  constructor
  · intro hmem hnum
    have key : (deleteExpense true net id w).2 = Except.ok () ∧
        (deleteExpense true net id w).1.db.getAll =
          w.db.getAll.filter (fun e => e.id != some id) ∧
        (deleteExpense true net id w).1.expenses =
          w.expenses.filter (fun e => e.id != some id) := by
      unfold deleteExpense
      cases hfind : w.expenses.find? (fun e => e.id == some id) with
      | none =>
        obtain ⟨e, he, hid⟩ := hmem
        have := List.find?_eq_none.mp hfind e he
        simp [hid] at this
      | some expense =>
        have hin : expense ∈ w.expenses := List.mem_of_find?_eq_some hfind
        have hid : expense.id = some id := by
          have := List.find?_some hfind
          simpa using this
        have hfix : expense.amount.toFixed = Except.ok () := by
          have := hnum expense hin hid
          cases ha : expense.amount <;> simp_all [Amount.toFixed]
        simp only [hfix, Bool.not_true, Bool.false_eq_true, if_false, trySyncToDrive_db]
        refine ⟨trivial, ?_, trivial⟩
        simp [deleteExpenseFromDB, DB.delete, DB.getAll]
    refine ⟨key.1, key.2.1, key.2.2, ?_, ?_⟩
    · intro e he
      rw [key.2.1] at he
      simpa using (List.mem_filter.mp he).2
    · intro e he
      rw [key.2.2] at he
      simpa using (List.mem_filter.mp he).2
  · intro hno confirm
    have hfind : w.expenses.find? (fun e => e.id == some id) = none := by
      apply List.find?_eq_none.mpr
      intro e he
      simpa using hno e he
    simp [deleteExpense, hfind]

/-- C6 at concrete inputs: deleting record `C` (id `7`) from the state whose
store and in-memory list are `[A, C]`, and from the state whose store is `[A]`
and whose in-memory list is `[C]`; and `deleteExpense(5)` where no record has
the id `5`. -/
theorem deleteExpense_removes_witness :
    ((deleteExpense true Net.allOk 7 worldAC).2 = Except.ok () ∧
      (deleteExpense true Net.allOk 7 worldAC).1.db.getAll = [recA] ∧
      (deleteExpense true Net.allOk 7 worldAC).1.expenses = [recA]) ∧
    ((deleteExpense true Net.allOk 7 worldDiverged).1.db.getAll = [recA] ∧
      (deleteExpense true Net.allOk 7 worldDiverged).1.expenses = []) ∧
    deleteExpense true Net.allOk 5 worldAC = (worldAC, Except.ok ()) :=
  have h := (deleteExpense_removes Net.allOk 7 worldAC).1 (by decide) (by decide)
  have h2 := (deleteExpense_removes Net.allOk 7 worldDiverged).1 (by decide) (by decide)
  ⟨⟨h.1, h.2.1, h.2.2.1⟩, ⟨h2.2.1, h2.2.2.1⟩,
   (deleteExpense_removes Net.allOk 5 worldAC).2 (by decide) true⟩

/-! ## Push, then pull -/

theorem toJSON_of_finite (S : List Expense)
    (hS : ∀ e ∈ S, e.amount ≠ Amount.nan ∧ ∀ b, e.amount ≠ Amount.infinity b) :
    S.map Expense.toJSON = S := by
  induction S with
  | nil => rfl
  | cons e es ih =>
    have he := hS e (List.mem_cons_self e es)
    have hes := ih (fun x hx => hS x (List.mem_cons_of_mem e hx))
    have : e.toJSON = e := by
      rcases e with ⟨i, d, a, t⟩
      cases a with
      | num q => rfl
      | nan => exact absurd rfl he.1
      | infinity b => exact absurd rfl (he.2 b)
      | null => rfl
    simp [this, hes]

theorem uploadToDrive_true_head (net : Net) (token : Option String) (drive : Drive)
    (S : List Expense) (hup : (uploadToDrive net token drive S).2 = Except.ok true)
    (hlist : net.list = Outcome.ok ∨ drive.files = []) :
    ∃ f fs, (uploadToDrive net token drive S).1.files = f :: fs ∧
      f.content = some (stringify S) := by
  obtain ⟨ht, hl, hu⟩ := (uploadToDrive_true_iff net token drive S).mp hup
  rcases hf : drive.files with _ | ⟨f, fs⟩
  · rcases hl' : net.list with _ | _ | _
    · simp [uploadToDrive, uploadToDriveTry, fetchList, fetchUpload, ht, hf, hl', hu]
    · simp [uploadToDrive, uploadToDriveTry, fetchList, fetchUpload, ht, hf, hl', hu]
    · exact absurd hl' hl
  · have hl' : net.list = Outcome.ok := by
      rcases hlist with h | h
      · exact h
      · rw [hf] at h
        exact absurd h (List.cons_ne_nil f fs)
    simp [uploadToDrive, uploadToDriveTry, fetchList, fetchUpload, ht, hf, hl', hu,
      setContent]

theorem loadFromDrive_head (net : Net) (token : Option String) (drive : Drive)
    (f : DriveFile) (fs : List DriveFile) (d : DriveData) (ht : truthy token = true)
    (hl : net.list = Outcome.ok) (hd : net.download = Outcome.ok)
    (hf : drive.files = f :: fs) (hc : f.content = some d) :
    (loadFromDrive net token drive).2 = Except.ok d := by
  simp [loadFromDrive, loadFromDriveTry, fetchList, fetchDownload, ht, hl, hd, hf, hc]

/-- C8 fails on the code in two ways. A record whose amount was parsed from
`abc` holds `NaN`; pushed to an empty remote with every request succeeding and
pulled back, its amount is `null`. And with the snapshot `[A, B]` on the
remote and the list query of the push answered non-2xx, `uploadToDrive([C])`
resolves to `true` after creating a second file, and the following pull, with
every request succeeding, yields `[A, B]`. -/
theorem round_trip_fails :
    recNaN.amount = Amount.nan ∧
    (uploadToDrive Net.allOk (some "tok") driveEmpty [recNaN]).2 = Except.ok true ∧
    (loadFromDrive Net.allOk (some "tok")
        (uploadToDrive Net.allOk (some "tok") driveEmpty [recNaN]).1).2 =
      Except.ok (DriveData.array [recNull]) ∧
    [recNull].map Expense.fields ≠ [recNaN].map Expense.fields ∧
    (uploadToDrive netListRefused (some "tok") driveAB [recC]).2 = Except.ok true ∧
    (loadFromDrive Net.allOk (some "tok")
        (uploadToDrive netListRefused (some "tok") driveAB [recC]).1).2 =
      Except.ok (DriveData.array [recA, recB]) ∧
    [recA, recB].map Expense.fields ≠ [recC].map Expense.fields := by
  decide

/-- C8 as amended: for every record set `S` none of whose amounts is `NaN` or
an infinity and every remote, if `uploadToDrive(S)` resolves to `true` after
its list query was answered 2xx (or while the remote held no file), then a
following `loadFromDrive()` whose list query and download are answered 2xx
yields `S`, hence a sequence equal to `S` on description, amount and date. -/
theorem push_then_pull_round_trip (net1 net2 : Net) (token : Option String) (drive : Drive)
    (S : List Expense)
    (hup : (uploadToDrive net1 token drive S).2 = Except.ok true)
    (hlist : net1.list = Outcome.ok ∨ drive.files = [])
    (hpull : net2.list = Outcome.ok ∧ net2.download = Outcome.ok)
    (hS : ∀ e ∈ S, e.amount ≠ Amount.nan ∧ ∀ b, e.amount ≠ Amount.infinity b) :
    ∃ S', (loadFromDrive net2 token (uploadToDrive net1 token drive S).1).2 =
        Except.ok (DriveData.array S') ∧
      S' = S ∧ S'.map Expense.fields = S.map Expense.fields := by
  have ht := ((uploadToDrive_true_iff net1 token drive S).mp hup).1
  obtain ⟨f, fs, hf, hc⟩ := uploadToDrive_true_head net1 token drive S hup hlist
  refine ⟨S, ?_, rfl, rfl⟩
  have := loadFromDrive_head net2 token _ f fs _ ht hpull.1 hpull.2 hf hc
  rw [this, stringify, toJSON_of_finite S hS]

/-- C8 as amended, at a concrete input: pushing `[A, B]` over an existing
snapshot and pulling it back, every request succeeding. -/
theorem push_then_pull_round_trip_witness :
    (uploadToDrive Net.allOk (some "tok") driveDup [recA, recB]).2 = Except.ok true ∧
    ∃ S', (loadFromDrive Net.allOk (some "tok")
          (uploadToDrive Net.allOk (some "tok") driveDup [recA, recB]).1).2 =
        Except.ok (DriveData.array S') ∧
      S' = [recA, recB] ∧ S'.map Expense.fields = [recA, recB].map Expense.fields :=
  ⟨by decide,
   push_then_pull_round_trip Net.allOk Net.allOk (some "tok") driveDup [recA, recB]
    (by decide) (Or.inl rfl) ⟨rfl, rfl⟩ (by decide)⟩

/-! ## Clear and re-add -/

theorem insertByKey_perm (e : Expense) (l : List Expense) :
    (insertByKey e l).Perm (e :: l) := by
  induction l with
  | nil => exact List.Perm.refl _
  | cons r rs ih =>
    unfold insertByKey
    split
    · exact List.Perm.refl _
    · exact (List.Perm.cons r ih).trans (List.Perm.swap e r rs)

theorem insertByKey_pairwise (e : Expense) (l : List Expense)
    (hl : l.Pairwise (fun a b => a.key < b.key)) (hne : ∀ r ∈ l, r.key ≠ e.key) :
    (insertByKey e l).Pairwise (fun a b => a.key < b.key) := by
  induction l with
  | nil => simp [insertByKey]
  | cons r rs ih =>
    rw [List.pairwise_cons] at hl
    unfold insertByKey
    split
    · rename_i hlt
      refine List.Pairwise.cons ?_ (List.Pairwise.cons hl.1 hl.2)
      intro x hx
      rcases List.mem_cons.mp hx with rfl | hx
      · exact hlt
      · exact Nat.lt_trans hlt (hl.1 x hx)
    · rename_i hge
      have hrlt : r.key < e.key :=
        Nat.lt_of_le_of_ne (Nat.le_of_not_lt hge) (hne r (List.mem_cons_self r rs))
      refine List.Pairwise.cons ?_ (ih hl.2 (fun x hx => hne x (List.mem_cons_of_mem r hx)))
      intro x hx
      rcases List.mem_cons.mp ((insertByKey_perm e rs).subset hx) with rfl | hx
      · exact hrlt
      · exact hl.1 x hx

theorem DB.add_fresh (db : DB) (e : Expense) (k : Nat) (he : e.id = some k)
    (hfresh : ∀ r ∈ db.records, r.id ≠ some k) :
    db.add e = ({ records := insertByKey e db.records, nextKey := max db.nextKey (k + 1) },
      Except.ok k) := by
  have hkey : db.hasKey k = false := by
    simp only [DB.hasKey, List.any_eq_false, beq_iff_eq]
    exact hfresh
  have hrec : ({ e with id := some k } : Expense) = e := by
    rcases e with ⟨i, d, a, t⟩
    simp only at he
    subst he
    rfl
  simp [DB.add, he, hkey, hrec]

theorem DB.addEach_distinct (R : List Expense) : ∀ db : DB,
    (∀ e ∈ R, ∃ k, e.id = some k) → (R.map Expense.id).Nodup →
    (∀ e ∈ R, ∀ r ∈ db.records, r.id ≠ e.id) →
    (∀ r ∈ db.records, ∃ k, r.id = some k) →
    db.records.Pairwise (fun a b => a.key < b.key) →
    (db.addEach R).2 = Except.ok () ∧ (db.addEach R).1.records.Perm (R ++ db.records) ∧
      (db.addEach R).1.records.Pairwise (fun a b => a.key < b.key) := by
  induction R with
  | nil =>
    intro db _ _ _ _ hsorted
    exact ⟨rfl, List.Perm.refl _, hsorted⟩
  | cons e es ih =>
    intro db hid hnodup hdisj hkeys hsorted
    obtain ⟨k, hk⟩ := hid e (List.mem_cons_self e es)
    have hfresh : ∀ r ∈ db.records, r.id ≠ some k := by
      intro r hr
      rw [← hk]
      exact hdisj e (List.mem_cons_self e es) r hr
    rw [List.map_cons, List.nodup_cons] at hnodup
    have hne : ∀ r ∈ db.records, r.key ≠ e.key := by
      intro r hr hkey
      obtain ⟨j, hj⟩ := hkeys r hr
      have h1 := hfresh r hr
      simp only [Expense.key, hj, hk, Option.getD_some] at hkey
      exact h1 (by rw [hj, hkey])
    have hstep := ih
      { records := insertByKey e db.records, nextKey := max db.nextKey (k + 1) }
      (fun x hx => hid x (List.mem_cons_of_mem e hx)) hnodup.2
      (by
        intro x hx r hr
        rcases List.mem_cons.mp ((insertByKey_perm e db.records).subset hr) with rfl | hr
        · intro heq
          exact hnodup.1 (heq ▸ List.mem_map_of_mem Expense.id hx)
        · exact hdisj x (List.mem_cons_of_mem e hx) r hr)
      (by
        intro r hr
        rcases List.mem_cons.mp ((insertByKey_perm e db.records).subset hr) with rfl | hr
        · exact ⟨k, hk⟩
        · exact hkeys r hr)
      (insertByKey_pairwise e db.records hsorted hne)
    simp only [DB.addEach, DB.add_fresh db e k hk hfresh]
    refine ⟨hstep.1, ?_, hstep.2.2⟩
    refine hstep.2.1.trans ?_
    exact ((insertByKey_perm e db.records).append_left es).trans List.perm_middle

theorem replaceLocal_distinct (w : World) (R : List Expense) (hne : R ≠ [])
    (hid : ∀ e ∈ R, ∃ k, e.id = some k) (hnodup : (R.map Expense.id).Nodup) :
    (replaceLocal (DriveData.array R) w).2 = Except.ok () ∧
    Replaced (replaceLocal (DriveData.array R) w).1 R := by
  have hnonEmpty : (DriveData.array R).nonEmpty = true := by
    cases R with
    | nil => exact absurd rfl hne
    | cons a as => rfl
  have h := DB.addEach_distinct R w.db.clear hid hnodup
    (by intro e _ r hr; simp [DB.clear] at hr)
    (by intro r hr; simp [DB.clear] at hr)
    (by simp [DB.clear])
  rcases hres : w.db.clear.addEach R with ⟨db1, res⟩
  rw [hres] at h
  simp only [DB.clear, List.append_nil] at h
  obtain ⟨hok, hperm, hsorted⟩ := h
  subst hok
  simp only [replaceLocal, hnonEmpty, if_true, DriveData.records, hres]
  refine ⟨trivial, hperm, hsorted, ?_, rfl⟩
  intro hR
  haveI : IsAntisymm Expense (fun a b => a.key < b.key) :=
    ⟨fun a b hab hba => absurd hab (Nat.lt_asymm hba)⟩
  exact List.eq_of_perm_of_sorted hperm hsorted hR

theorem pullAndReplace_distinct (net : Net) (w : World) (R : List Expense) (hne : R ≠ [])
    (hid : ∀ e ∈ R, ∃ k, e.id = some k) (hnodup : (R.map Expense.id).Nodup)
    (hl : (loadFromDrive net w.accessToken w.drive).2 = Except.ok (DriveData.array R)) :
    Replaced (pullAndReplace net w).1 R := by
  unfold pullAndReplace
  rcases hload : loadFromDrive net w.accessToken w.drive with ⟨d1, r⟩
  rw [hload] at hl
  simp only at hl
  subst hl
  simp only [hload]
  exact (replaceLocal_distinct _ R hne hid hnodup).2

/-- C7 fails on the code: with local state `[C]` and a pulled sequence whose
two records both carry the id `1`, the second `add` fails after the clear has
committed: the store is left holding only the first pulled record, which is
neither the local state nor the pulled sequence, while the in-memory list
still shows `[C]`; the same happens in the interactive login. -/
theorem replace_leaves_partial_store :
    (init googleOk Net.allOk (World.start dbC none driveDup)).db.getAll = [recA] ∧
    (init googleOk Net.allOk (World.start dbC none driveDup)).expenses = [recC] ∧
    (handleGoogleLogin googleOk Net.allOk
      (init googleOk netDown (World.start dbC none driveDup))).db.getAll = [recA] ∧
    (init googleOk netDown (World.start dbC none driveDup)).db.getAll = [recC] := by
  decide

/-- C7 as amended: the replace step clears the store and then adds the pulled
records one at a time. For every local state and every pulled non-empty
sequence `R` whose records carry pairwise distinct ids, after the replace step
of startup (stored-token and silent-login branch) and of interactive login the
store holds exactly the records of `R`, in key order, and the in-memory list
equals the store's content. -/
theorem replace_with_distinct_ids (g : Google) (net : Net) (w : World) (R : List Expense)
    (hne : R ≠ []) (hsome : ∀ e ∈ R, e.id ≠ none)
    (hnodup : (R.map Expense.id).Nodup) :
    (g.loaded = true → truthy w.driveToken = true →
      (loadFromDrive net w.accessToken w.drive).2 = Except.ok (DriveData.array R) →
      Replaced (init g net w) R) ∧
    (g.loaded = true → truthy w.driveToken = false → ∀ token, g.silent = some token →
      (loadFromDrive net (some token) w.drive).2 = Except.ok (DriveData.array R) →
      Replaced (init g net w) R) ∧
    (w.tokenClient = true → ∀ token, g.consent = some token →
      (loadFromDrive net (some token) w.drive).2 = Except.ok (DriveData.array R) →
      Replaced (handleGoogleLogin g net w) R) := by
  have hid : ∀ e ∈ R, ∃ k, e.id = some k := fun e he =>
    Option.ne_none_iff_exists'.mp (hsome e he)
  refine ⟨?_, ?_, ?_⟩
  · intro hg ht hl
    unfold init initTry initGoogleGIS
    simp only [hg, Bool.not_true, Bool.false_eq_true, if_false, ht, if_true]
    exact pullAndReplace_distinct net _ R hne hid hnodup hl
  · intro hg ht token hs hl
    unfold init initTry initGoogleGIS
    simp only [hg, Bool.not_true, Bool.false_eq_true, if_false, ht, trySilentLogin,
      tokenCallback, hs]
    exact pullAndReplace_distinct net _ R hne hid hnodup hl
  · intro hc token hs hl
    unfold handleGoogleLogin requestAccessToken
    simp only [hc, Bool.not_true, Bool.false_eq_true, if_false, tokenCallback, hs]
    exact pullAndReplace_distinct net _ R hne hid hnodup hl

/-- C7 as amended, at a concrete input: startup without a stored token,
silent login succeeding, local state `[C]` and remote snapshot `[A, B]`. -/
theorem replace_with_distinct_ids_witness :
    (init googleOk Net.allOk (World.start dbC none driveAB)).db.getAll = [recA, recB] ∧
    (init googleOk Net.allOk (World.start dbC none driveAB)).expenses = [recA, recB] :=
  have h := (replace_with_distinct_ids googleOk Net.allOk (World.start dbC none driveAB)
    [recA, recB] (by decide) (by decide) (by decide)).2.1 rfl rfl "tok" rfl (by decide)
  have hstore := h.2.2.1 (by decide)
  ⟨hstore, h.2.2.2.trans hstore⟩

end FinancePwa
